import Mathlib

/-!
PCA9555 I/O expander driver: register codec and pin operations.

A shallow embedding of `src/pca9555.c` (with the types of `src/pca9555.h`).
The driver's functions are translated statement by statement into pure
functions that pass the state of the I2C bus explicitly.  C integers are
natural numbers; every conversion to `uint8_t` / `uint16_t` that the C code
performs is written out as `% 256` / `% 65536`.
-/

namespace PCA9555

/-! ## The transport the driver consumes -/

/-- Status type of the STM32 HAL (`HAL_StatusTypeDef`); it is declared in the
HAL headers pulled in through `i2c.h`, not in this repository. -/
inductive HAL_StatusTypeDef
  | HAL_OK
  | HAL_ERROR
  | HAL_BUSY
  | HAL_TIMEOUT
  deriving DecidableEq, Repr

/-- Pin state type of the STM32 HAL (`GPIO_PinState`), declared in the HAL
headers: `GPIO_PIN_RESET = 0`, `GPIO_PIN_SET = 1`. -/
inductive GPIO_PinState
  | GPIO_PIN_RESET
  | GPIO_PIN_SET
  deriving DecidableEq, Repr

/-- Integer value of a `GPIO_PinState` enumerator. -/
def GPIO_PinState.toNat : GPIO_PinState → Nat
  | GPIO_PIN_RESET => 0
  | GPIO_PIN_SET => 1

/-- One single-byte memory transfer as seen on the bus: the 8-bit device
address, the command byte (`MemAddress`) and, for a write, the data byte. -/
inductive Transfer
  | memRead (devAddress memAddress : Nat)
  | memWrite (devAddress memAddress data : Nat)
  deriving DecidableEq, Repr

/-- Modelled from the spec: the I2C transport (`I2C_HandleTypeDef` with
`HAL_I2C_Mem_Read` / `HAL_I2C_Mem_Write`) belongs to the STM32 HAL and is not
part of the repository.  It is modelled as the recording mock of the spec's
testable properties: `regs` is the chip's byte at each command byte, `status`
is the status the transport gives to the k-th transfer it is asked for
(`HAL_OK` for a transfer that succeeds), and `log` records every transfer that
was issued, in order.  For the readiness probe, `ready` is the status
`HAL_I2C_IsDeviceReady` reports for a device address (`HAL_OK` when the device
acknowledges) and `probes` records every probe issued, as (device address,
trials, timeout). -/
structure I2C_HandleTypeDef where
  regs : Nat → Nat
  status : Nat → HAL_StatusTypeDef
  log : List Transfer
  ready : Nat → HAL_StatusTypeDef
  probes : List (Nat × Nat × Nat)

/-- Modelled from the spec: `read_cb`, an I2C memory read of length 1 at a
command byte (`HAL_I2C_Mem_Read (hi2c, DevAddress, MemAddress, 1, pData, 1,
HAL_MAX_DELAY)`).  The transfer is recorded; when it succeeds the byte stored
at the command byte is delivered into the `uint8_t` buffer, when it fails the
buffer `pData` keeps its value. -/
def HAL_I2C_Mem_Read (hi2c : I2C_HandleTypeDef) (devAddress memAddress pData : Nat) :
    HAL_StatusTypeDef × Nat × I2C_HandleTypeDef :=
  let ret := hi2c.status hi2c.log.length
  let hi2c1 := { hi2c with log := hi2c.log ++ [Transfer.memRead devAddress memAddress] }
  if ret = HAL_StatusTypeDef.HAL_OK then (ret, hi2c.regs memAddress % 256, hi2c1)
  else (ret, pData, hi2c1)

/-- Modelled from the spec: `write_cb`, an I2C memory write of length 1 at a
command byte (`HAL_I2C_Mem_Write (hi2c, DevAddress, MemAddress, 1, pData, 1,
HAL_MAX_DELAY)`).  The transfer is recorded; when it succeeds the chip's byte
at the command byte becomes `data`, when it fails the chip is unchanged. -/
def HAL_I2C_Mem_Write (hi2c : I2C_HandleTypeDef) (devAddress memAddress data : Nat) :
    HAL_StatusTypeDef × I2C_HandleTypeDef :=
  let ret := hi2c.status hi2c.log.length
  let log1 := hi2c.log ++ [Transfer.memWrite devAddress memAddress data]
  if ret = HAL_StatusTypeDef.HAL_OK then
    (ret, { hi2c with regs := fun a => if a = memAddress then data else hi2c.regs a, log := log1 })
  else (ret, { hi2c with log := log1 })

/-- Modelled from the spec: the transport-level "is device ready" ping
(`HAL_I2C_IsDeviceReady (hi2c, DevAddress, Trials, Timeout)` of the STM32 HAL).
The probe is recorded and the status the bus reports for the device address is
returned; it transfers no register byte. -/
def HAL_I2C_IsDeviceReady (hi2c : I2C_HandleTypeDef) (devAddress trials timeout : Nat) :
    HAL_StatusTypeDef × I2C_HandleTypeDef :=
  (hi2c.ready devAddress, { hi2c with probes := hi2c.probes ++ [(devAddress, trials, timeout)] })

/-! ## Types and constants of `pca9555.h` -/

open HAL_StatusTypeDef

inductive PCA9555_PinPolarity
  | PCA9555_POLARITY_NORMAL
  | PCA9555_POLARITY_INVERTED
  deriving DecidableEq, Repr

inductive PCA9555_PinMode
  | PCA9555_PIN_OUTPUT_MODE
  | PCA9555_PIN_INPUT_MODE
  deriving DecidableEq, Repr

/-- The device handle, `struct PCA9555_Handle`: the bus it lives on (the
pointer `hi2c`, kept as an identifier) and the 8-bit transfer address. -/
structure PCA9555_Handle where
  hi2c : Nat
  addr : Nat

def PCA9555_CB_INPUTS_PORTS : Nat := 0x00
def PCA9555_CB_OUTPUTS_PORTS : Nat := 0x02
def PCA9555_CB_POL_INVERT_PORTS : Nat := 0x04
def PCA9555_CB_CONFIG_PORTS : Nat := 0x06

/-! ## Private macros of `pca9555.c` -/

/-- Macro `I2C_READYNESS_DELAY`: max delay given to the I2C readiness probe. -/
def I2C_READYNESS_DELAY : Nat := 500

/-- Macro `lowByte(w)`, defined as `((uint8_t)((w) & 0xff))`. -/
def lowByte (w : Nat) : Nat := (w &&& 0xff) % 256

/-- Macro `highByte(w)`, defined as `((uint8_t)((w) >> 8))`. -/
def highByte (w : Nat) : Nat := (w >>> 8) % 256

/-- Macro `bitRead(value, bit)`, defined as `(((value) >> (bit)) & 0x01)`.
The `uint16_t` value is promoted to a 32-bit `int` before the shift, so the
definition follows the C macro for `bit < 32`; for `bit ≥ 32` the C shift is
undefined and the mathematical shift written here is only a placeholder: no
statement below concludes anything from the value of `bitRead` at such a
`bit`. -/
def bitRead (value bit : Nat) : Nat := (value >>> bit) &&& 0x01

/-- Macro `bitSet(value, bit)`, defined as `((value) |= (1UL << (bit)))`, on a
`uint16_t` lvalue: the new value of `value`.  `1UL` is 32 bits wide on the target; for
`bit ≥ 32` the C shift is undefined and the model takes the mathematical shift
reduced to 32 bits. -/
def bitSet (value bit : Nat) : Nat := (value ||| (1 <<< bit) % 4294967296) % 65536

/-- Macro `bitClear(value, bit)`, defined as `((value) &= ~(1UL << (bit)))`, on
a `uint16_t` lvalue: the new value of `value`. -/
def bitClear (value bit : Nat) : Nat :=
  (value &&& (0xFFFFFFFF ^^^ (1 <<< bit) % 4294967296)) % 65536

/-- Macro `bitWrite(value, bit, bitvalue)`, defined as `(bitvalue ?
bitSet(value, bit) : bitClear(value, bit))`: the new value of `value`. -/
def bitWrite (value bit bitvalue : Nat) : Nat :=
  if bitvalue ≠ 0 then bitSet value bit else bitClear value bit

/-! ## Functions of `pca9555.c` -/

open PCA9555_PinPolarity PCA9555_PinMode

/-- Source function `PCA9555_readRegister (hdev, addr, data)`: the returned
status, the value of `*data` after the call (its old value `data` when the call
fails) and the bus after the call. -/
def PCA9555_readRegister (hdev : PCA9555_Handle) (addr data : Nat) (bus : I2C_HandleTypeDef) :
    HAL_StatusTypeDef × Nat × I2C_HandleTypeDef :=
  -- uint8_t datahigh = 0; uint8_t datalow = 0;
  match HAL_I2C_Mem_Read bus hdev.addr addr 0 with
  | (ret, datahigh, bus1) =>
    if ret ≠ HAL_OK then (ret, data, bus1)
    else
      match HAL_I2C_Mem_Read bus1 hdev.addr (addr + 1) 0 with
      | (ret, datalow, bus2) =>
        if ret ≠ HAL_OK then (ret, data, bus2)
        else (ret, ((datahigh <<< 8) ||| datalow) % 65536, bus2)

/-- Source function `PCA9555_writeRegister (hdev, regAddr, regValue)`: the
returned status and the bus after the call. -/
def PCA9555_writeRegister (hdev : PCA9555_Handle) (regAddr regValue : Nat)
    (bus : I2C_HandleTypeDef) : HAL_StatusTypeDef × I2C_HandleTypeDef :=
  let lowb := lowByte regValue
  let highb := highByte regValue
  match HAL_I2C_Mem_Write bus hdev.addr regAddr lowb with
  | (ret, bus1) =>
    if ret ≠ HAL_OK then (ret, bus1)
    else
      match HAL_I2C_Mem_Write bus1 hdev.addr (regAddr + 1) highb with
      | (ret, bus2) =>
        if ret ≠ HAL_OK then (ret, bus2)
        else (HAL_OK, bus2)

/-- Source function `PCA9555_updateRegisterBit (hdev, pin, bitvalue,
commandByteAddr)`.  The
local `regValue` is uninitialised in C and only used after a successful read.
The second call passes `commandByteAddr + 1` into a `uint8_t` parameter. -/
def PCA9555_updateRegisterBit (hdev : PCA9555_Handle) (pin bitvalue commandByteAddr : Nat)
    (bus : I2C_HandleTypeDef) : HAL_StatusTypeDef × I2C_HandleTypeDef :=
  match PCA9555_readRegister hdev commandByteAddr 0 bus with
  | (ret, regValue, bus1) =>
    if ret ≠ HAL_OK then (ret, bus1)
    else
      let regValue := bitWrite regValue pin bitvalue
      match PCA9555_writeRegister hdev commandByteAddr (lowByte regValue) bus1 with
      | (ret, bus2) =>
        if ret ≠ HAL_OK then (ret, bus2)
        else
          match PCA9555_writeRegister hdev ((commandByteAddr + 1) % 256) (highByte regValue)
              bus2 with
          | (ret, bus3) =>
            if ret ≠ HAL_OK then (ret, bus3)
            else (HAL_OK, bus3)

/-- Source function `PCA9555_init (hdev, hi2c, addr)`: the returned status,
the handle after the call and the bus after the call.  `hi2c` is the bus
pointer stored in the handle and `bus` the state of that bus; `addr` is a
`uint16_t`, and `addr << 1` is stored back into the `uint16_t` field. -/
def PCA9555_init (hdev : PCA9555_Handle) (hi2c addr : Nat) (bus : I2C_HandleTypeDef) :
    HAL_StatusTypeDef × PCA9555_Handle × I2C_HandleTypeDef :=
  let hdev1 := { hdev with hi2c := hi2c }
  let hdev2 := { hdev1 with addr := (addr <<< 1) % 65536 }
  match HAL_I2C_IsDeviceReady bus hdev2.addr 20 I2C_READYNESS_DELAY with
  | (ret, bus1) =>
    if ret ≠ HAL_OK then (ret, hdev2, bus1)
    else (HAL_OK, hdev2, bus1)

/-- Source function `PCA9555_digitalWrite (hdev, pin, pinState)`.  The local
`data` is uninitialised in C and only used after a successful read. -/
def PCA9555_digitalWrite (hdev : PCA9555_Handle) (pin : Nat) (pinState : GPIO_PinState)
    (bus : I2C_HandleTypeDef) : HAL_StatusTypeDef × I2C_HandleTypeDef :=
  match PCA9555_readRegister hdev PCA9555_CB_OUTPUTS_PORTS 0 bus with
  | (ret, data, bus1) =>
    if ret ≠ HAL_OK then (ret, bus1)
    else
      let data := bitWrite data pin pinState.toNat
      match PCA9555_writeRegister hdev PCA9555_CB_OUTPUTS_PORTS data bus1 with
      | (ret, bus2) =>
        if ret ≠ HAL_OK then (ret, bus2)
        else (HAL_OK, bus2)

/-- Source function `PCA9555_digitalRead (hdev, pin, pinValue)`: the returned
status, the value of `*pinValue` after the call (its old value when the call
fails) and the bus after the call. -/
def PCA9555_digitalRead (hdev : PCA9555_Handle) (pin pinValue : Nat) (bus : I2C_HandleTypeDef) :
    HAL_StatusTypeDef × Nat × I2C_HandleTypeDef :=
  match PCA9555_readRegister hdev PCA9555_CB_INPUTS_PORTS 0 bus with
  | (ret, regValue, bus1) =>
    if ret ≠ HAL_OK then (ret, pinValue, bus1)
    else (HAL_OK, bitRead regValue pin % 256, bus1)

/-- Source function `PCA9555_pinMode (hdev, pin, mode, polarity)`; the
comparisons `polarity == PCA9555_POLARITY_INVERTED` and `mode ==
PCA9555_PIN_INPUT_MODE` yield 1 or 0. -/
def PCA9555_pinMode (hdev : PCA9555_Handle) (pin : Nat) (mode : PCA9555_PinMode)
    (polarity : PCA9555_PinPolarity) (bus : I2C_HandleTypeDef) :
    HAL_StatusTypeDef × I2C_HandleTypeDef :=
  match PCA9555_updateRegisterBit hdev pin
      (if polarity = PCA9555_POLARITY_INVERTED then 1 else 0) PCA9555_CB_POL_INVERT_PORTS bus with
  | (ret, bus1) =>
    if ret ≠ HAL_OK then (ret, bus1)
    else
      match PCA9555_updateRegisterBit hdev pin
          (if mode = PCA9555_PIN_INPUT_MODE then 1 else 0) PCA9555_CB_CONFIG_PORTS bus1 with
      | (ret, bus2) =>
        if ret ≠ HAL_OK then (ret, bus2)
        else (HAL_OK, bus2)

/-! ## A concrete bus for evaluating the driver -/

/-- A bus whose chip holds the bytes of `bytes` at command bytes 0, 1, 2, …
(zero beyond), whose transfers all succeed, whose devices all acknowledge the
readiness probe, and whose logs are empty. -/
def mkBus (bytes : List Nat) : I2C_HandleTypeDef :=
  { regs := fun a => bytes.getD a 0, status := fun _ => HAL_StatusTypeDef.HAL_OK, log := [],
    ready := fun _ => HAL_StatusTypeDef.HAL_OK, probes := [] }

/-- The bus `mkBus bytes` except that its k-th transfer fails with `e`. -/
def mkBusFailing (bytes : List Nat) (k : Nat) (e : HAL_StatusTypeDef) : I2C_HandleTypeDef :=
  { regs := fun a => bytes.getD a 0,
    status := fun i => if i = k then e else HAL_StatusTypeDef.HAL_OK, log := [],
    ready := fun _ => HAL_StatusTypeDef.HAL_OK, probes := [] }

/-- The bus `mkBus bytes` except that no device acknowledges the readiness
probe: every probe reports `e`. -/
def mkBusAbsent (bytes : List Nat) (e : HAL_StatusTypeDef) : I2C_HandleTypeDef :=
  { regs := fun a => bytes.getD a 0, status := fun _ => HAL_StatusTypeDef.HAL_OK, log := [],
    ready := fun _ => e, probes := [] }

/-- The handle used in the examples: bus 0, 7-bit address 0x21 shifted. -/
def hdev0 : PCA9555_Handle := { hi2c := 0, addr := 0x42 }

/-! ## The specification's vocabulary -/

/-- The specification's `with_bit (R, p, l)`: the value `R` with bit `p` set
to 1 when the level is High and to 0 otherwise. -/
def spec_with_bit (R p : Nat) (high : Bool) : Nat :=
  if high then (if R.testBit p then R else R + 2 ^ p)
  else (if R.testBit p then R - 2 ^ p else R)

/-- The specification's 16-bit logical register: the byte at the lower command
byte is bits 0..7, the byte at the higher command byte is bits 8..15. -/
def spec_read16 (byteAtBase byteAtBasePlus1 : Nat) : Nat :=
  byteAtBase ||| (byteAtBasePlus1 <<< 8)

/-- The specification's `low_byte`. -/
def spec_low_byte (v : Nat) : Nat := v % 256

/-- The specification's `high_byte`. -/
def spec_high_byte (v : Nat) : Nat := v / 256

/-! ## The transport, one transfer at a time -/

theorem HAL_I2C_Mem_Read_ok (bus : I2C_HandleTypeDef) (d a p : Nat)
    (h : bus.status bus.log.length = HAL_OK) :
    HAL_I2C_Mem_Read bus d a p =
      (HAL_OK, bus.regs a % 256, { bus with log := bus.log ++ [Transfer.memRead d a] }) := by
  simp [HAL_I2C_Mem_Read, h]

theorem HAL_I2C_Mem_Read_fail (bus : I2C_HandleTypeDef) (d a p : Nat) (e : HAL_StatusTypeDef)
    (h : bus.status bus.log.length = e) (he : e ≠ HAL_OK) :
    HAL_I2C_Mem_Read bus d a p =
      (e, p, { bus with log := bus.log ++ [Transfer.memRead d a] }) := by
  simp [HAL_I2C_Mem_Read, h, he]

theorem HAL_I2C_Mem_Write_ok (bus : I2C_HandleTypeDef) (d a v : Nat)
    (h : bus.status bus.log.length = HAL_OK) :
    HAL_I2C_Mem_Write bus d a v =
      (HAL_OK, { bus with regs := fun x => if x = a then v else bus.regs x,
                          log := bus.log ++ [Transfer.memWrite d a v] }) := by
  simp [HAL_I2C_Mem_Write, h]

theorem HAL_I2C_Mem_Write_fail (bus : I2C_HandleTypeDef) (d a v : Nat) (e : HAL_StatusTypeDef)
    (h : bus.status bus.log.length = e) (he : e ≠ HAL_OK) :
    HAL_I2C_Mem_Write bus d a v =
      (e, { bus with log := bus.log ++ [Transfer.memWrite d a v] }) := by
  simp [HAL_I2C_Mem_Write, h, he]

theorem PCA9555_writeRegister_ok (hdev : PCA9555_Handle) (b v : Nat) (bus : I2C_HandleTypeDef)
    (h0 : bus.status bus.log.length = HAL_OK) (h1 : bus.status (bus.log.length + 1) = HAL_OK) :
    PCA9555_writeRegister hdev b v bus =
      (HAL_OK, { bus with
          regs := fun x => if x = b + 1 then highByte v else if x = b then lowByte v else bus.regs x,
          log := bus.log ++ [Transfer.memWrite hdev.addr b (lowByte v),
                             Transfer.memWrite hdev.addr (b + 1) (highByte v)] }) := by
  simp [PCA9555_writeRegister, HAL_I2C_Mem_Write, h0, h1]

theorem PCA9555_readRegister_ok (hdev : PCA9555_Handle) (b d : Nat) (bus : I2C_HandleTypeDef)
    (h0 : bus.status bus.log.length = HAL_OK) (h1 : bus.status (bus.log.length + 1) = HAL_OK) :
    PCA9555_readRegister hdev b d bus =
      (HAL_OK, ((bus.regs b % 256) <<< 8 ||| bus.regs (b + 1) % 256) % 65536,
        { bus with log := bus.log ++ [Transfer.memRead hdev.addr b,
                                      Transfer.memRead hdev.addr (b + 1)] }) := by
  simp [PCA9555_readRegister, HAL_I2C_Mem_Read, h0, h1]

theorem PCA9555_updateRegisterBit_ok (hdev : PCA9555_Handle) (pin bitvalue b : Nat)
    (bus : I2C_HandleTypeDef) (h : ∀ k < 6, bus.status (bus.log.length + k) = HAL_OK) :
    PCA9555_updateRegisterBit hdev pin bitvalue b bus =
      (HAL_OK,
        { bus with
          regs := fun x =>
            if x = (b + 1) % 256 + 1 then
              highByte (highByte (bitWrite (((bus.regs b % 256) <<< 8 |||
                bus.regs (b + 1) % 256) % 65536) pin bitvalue))
            else if x = (b + 1) % 256 then
              lowByte (highByte (bitWrite (((bus.regs b % 256) <<< 8 |||
                bus.regs (b + 1) % 256) % 65536) pin bitvalue))
            else if x = b + 1 then
              highByte (lowByte (bitWrite (((bus.regs b % 256) <<< 8 |||
                bus.regs (b + 1) % 256) % 65536) pin bitvalue))
            else if x = b then
              lowByte (lowByte (bitWrite (((bus.regs b % 256) <<< 8 |||
                bus.regs (b + 1) % 256) % 65536) pin bitvalue))
            else bus.regs x,
          log := bus.log ++
            [Transfer.memRead hdev.addr b, Transfer.memRead hdev.addr (b + 1),
             Transfer.memWrite hdev.addr b
               (lowByte (lowByte (bitWrite (((bus.regs b % 256) <<< 8 |||
                 bus.regs (b + 1) % 256) % 65536) pin bitvalue))),
             Transfer.memWrite hdev.addr (b + 1)
               (highByte (lowByte (bitWrite (((bus.regs b % 256) <<< 8 |||
                 bus.regs (b + 1) % 256) % 65536) pin bitvalue))),
             Transfer.memWrite hdev.addr ((b + 1) % 256)
               (lowByte (highByte (bitWrite (((bus.regs b % 256) <<< 8 |||
                 bus.regs (b + 1) % 256) % 65536) pin bitvalue))),
             Transfer.memWrite hdev.addr ((b + 1) % 256 + 1)
               (highByte (highByte (bitWrite (((bus.regs b % 256) <<< 8 |||
                 bus.regs (b + 1) % 256) % 65536) pin bitvalue)))] }) := by
  have h0 := h 0 (by omega)
  have h1 := h 1 (by omega)
  have h2 := h 2 (by omega)
  have h3 := h 3 (by omega)
  have h4 := h 4 (by omega)
  have h5 := h 5 (by omega)
  simp only [Nat.add_zero] at h0
  simp [PCA9555_updateRegisterBit, PCA9555_readRegister, PCA9555_writeRegister,
    HAL_I2C_Mem_Read, HAL_I2C_Mem_Write, Nat.add_assoc, h0, h1, h2, h3, h4, h5]

theorem PCA9555_updateRegisterBit_fail (hdev : PCA9555_Handle) (pin bitvalue b : Nat)
    (bus : I2C_HandleTypeDef) (i : Nat) (e : HAL_StatusTypeDef) (hi : i < 6)
    (hok : ∀ k < i, bus.status (bus.log.length + k) = HAL_OK)
    (hfail : bus.status (bus.log.length + i) = e) (he : e ≠ HAL_OK) :
    (PCA9555_updateRegisterBit hdev pin bitvalue b bus).1 = e ∧
    (PCA9555_updateRegisterBit hdev pin bitvalue b bus).2.status = bus.status ∧
    bus.log <+: (PCA9555_updateRegisterBit hdev pin bitvalue b bus).2.log ∧
    (PCA9555_updateRegisterBit hdev pin bitvalue b bus).2.log.length =
      bus.log.length + (i + 1) := by
  have h0 := hok 0
  have h1 := hok 1
  have h2 := hok 2
  have h3 := hok 3
  have h4 := hok 4
  simp only [Nat.add_zero] at h0
  interval_cases i <;>
  simp_all [PCA9555_updateRegisterBit, PCA9555_readRegister, PCA9555_writeRegister,
    HAL_I2C_Mem_Read, HAL_I2C_Mem_Write, Nat.add_assoc]

theorem PCA9555_updateRegisterBit_ok_log (hdev : PCA9555_Handle) (pin bitvalue b : Nat)
    (bus : I2C_HandleTypeDef) (h : ∀ k < 6, bus.status (bus.log.length + k) = HAL_OK) :
    (PCA9555_updateRegisterBit hdev pin bitvalue b bus).1 = HAL_OK ∧
    (PCA9555_updateRegisterBit hdev pin bitvalue b bus).2.status = bus.status ∧
    ∃ d0 d1 d2 d3 : Nat,
      (PCA9555_updateRegisterBit hdev pin bitvalue b bus).2.log = bus.log ++
        [Transfer.memRead hdev.addr b, Transfer.memRead hdev.addr (b + 1),
         Transfer.memWrite hdev.addr b d0, Transfer.memWrite hdev.addr (b + 1) d1,
         Transfer.memWrite hdev.addr ((b + 1) % 256) d2,
         Transfer.memWrite hdev.addr ((b + 1) % 256 + 1) d3] := by
  rw [PCA9555_updateRegisterBit_ok hdev pin bitvalue b bus h]
  exact ⟨rfl, rfl, _, _, _, _, rfl⟩

theorem PCA9555_pinMode_eq (hdev : PCA9555_Handle) (pin : Nat) (mode : PCA9555_PinMode)
    (polarity : PCA9555_PinPolarity) (bus : I2C_HandleTypeDef) :
    PCA9555_pinMode hdev pin mode polarity bus =
      if (PCA9555_updateRegisterBit hdev pin
          (if polarity = PCA9555_POLARITY_INVERTED then 1 else 0)
          PCA9555_CB_POL_INVERT_PORTS bus).1 ≠ HAL_OK then
        PCA9555_updateRegisterBit hdev pin
          (if polarity = PCA9555_POLARITY_INVERTED then 1 else 0)
          PCA9555_CB_POL_INVERT_PORTS bus
      else if (PCA9555_updateRegisterBit hdev pin
          (if mode = PCA9555_PIN_INPUT_MODE then 1 else 0) PCA9555_CB_CONFIG_PORTS
          (PCA9555_updateRegisterBit hdev pin
            (if polarity = PCA9555_POLARITY_INVERTED then 1 else 0)
            PCA9555_CB_POL_INVERT_PORTS bus).2).1 ≠ HAL_OK then
        PCA9555_updateRegisterBit hdev pin
          (if mode = PCA9555_PIN_INPUT_MODE then 1 else 0) PCA9555_CB_CONFIG_PORTS
          (PCA9555_updateRegisterBit hdev pin
            (if polarity = PCA9555_POLARITY_INVERTED then 1 else 0)
            PCA9555_CB_POL_INVERT_PORTS bus).2
      else
        (HAL_OK, (PCA9555_updateRegisterBit hdev pin
          (if mode = PCA9555_PIN_INPUT_MODE then 1 else 0) PCA9555_CB_CONFIG_PORTS
          (PCA9555_updateRegisterBit hdev pin
            (if polarity = PCA9555_POLARITY_INVERTED then 1 else 0)
            PCA9555_CB_POL_INVERT_PORTS bus).2).2) := by
  unfold PCA9555_pinMode
  generalize PCA9555_updateRegisterBit hdev pin
    (if polarity = PCA9555_POLARITY_INVERTED then 1 else 0) PCA9555_CB_POL_INVERT_PORTS bus = r1
  obtain ⟨ret1, bus1⟩ := r1
  dsimp only

theorem PCA9555_pinMode_fail (hdev : PCA9555_Handle) (pin : Nat) (mode : PCA9555_PinMode)
    (polarity : PCA9555_PinPolarity) (bus : I2C_HandleTypeDef) (i : Nat)
    (e : HAL_StatusTypeDef) (hi : i < 12)
    (hok : ∀ k < i, bus.status (bus.log.length + k) = HAL_OK)
    (hfail : bus.status (bus.log.length + i) = e) (he : e ≠ HAL_OK) :
    (PCA9555_pinMode hdev pin mode polarity bus).1 = e ∧
    bus.log <+: (PCA9555_pinMode hdev pin mode polarity bus).2.log ∧
    (PCA9555_pinMode hdev pin mode polarity bus).2.log.length = bus.log.length + (i + 1) := by
  rw [PCA9555_pinMode_eq]
  by_cases h6 : i < 6
  · obtain ⟨h1, -, h2, h3⟩ := PCA9555_updateRegisterBit_fail hdev pin
      (if polarity = PCA9555_POLARITY_INVERTED then 1 else 0) PCA9555_CB_POL_INVERT_PORTS
      bus i e h6 hok hfail he
    rw [if_pos (by rw [h1]; exact he)]
    exact ⟨h1, h2, h3⟩
  · have hfirst : ∀ k < 6, bus.status (bus.log.length + k) = HAL_OK :=
      fun k hk => hok k (by omega)
    obtain ⟨h1, hst, d0, d1, d2, d3, hlog⟩ := PCA9555_updateRegisterBit_ok_log hdev pin
      (if polarity = PCA9555_POLARITY_INVERTED then 1 else 0) PCA9555_CB_POL_INVERT_PORTS
      bus hfirst
    rw [if_neg (by rw [h1]; exact fun h => h rfl)]
    have hlen : (PCA9555_updateRegisterBit hdev pin
        (if polarity = PCA9555_POLARITY_INVERTED then 1 else 0) PCA9555_CB_POL_INVERT_PORTS
        bus).2.log.length = bus.log.length + 6 := by simp [hlog]
    obtain ⟨g1, -, g2, g3⟩ := PCA9555_updateRegisterBit_fail hdev pin
      (if mode = PCA9555_PIN_INPUT_MODE then 1 else 0) PCA9555_CB_CONFIG_PORTS
      (PCA9555_updateRegisterBit hdev pin
        (if polarity = PCA9555_POLARITY_INVERTED then 1 else 0) PCA9555_CB_POL_INVERT_PORTS
        bus).2 (i - 6) e (by omega)
      (fun k hk => by rw [hst, hlen, Nat.add_assoc]; exact hok (6 + k) (by omega))
      (by rw [hst, hlen, Nat.add_assoc]; rw [show 6 + (i - 6) = i by omega]; exact hfail) he
    rw [if_pos (by rw [g1]; exact he)]
    have hpre : bus.log <+: (PCA9555_updateRegisterBit hdev pin
        (if polarity = PCA9555_POLARITY_INVERTED then 1 else 0) PCA9555_CB_POL_INVERT_PORTS
        bus).2.log := by rw [hlog]; exact List.prefix_append _ _
    refine ⟨g1, hpre.trans g2, ?_⟩
    rw [g3, hlen]
    omega

theorem PCA9555_pinMode_ok_log (hdev : PCA9555_Handle) (pin : Nat) (mode : PCA9555_PinMode)
    (polarity : PCA9555_PinPolarity) (bus : I2C_HandleTypeDef)
    (h : ∀ k < 12, bus.status (bus.log.length + k) = HAL_OK) :
    (PCA9555_pinMode hdev pin mode polarity bus).1 = HAL_OK ∧
    ∃ d0 d1 d2 d3 d4 d5 d6 d7 : Nat,
      (PCA9555_pinMode hdev pin mode polarity bus).2.log = bus.log ++
        [Transfer.memRead hdev.addr 4, Transfer.memRead hdev.addr 5,
         Transfer.memWrite hdev.addr 4 d0, Transfer.memWrite hdev.addr 5 d1,
         Transfer.memWrite hdev.addr 5 d2, Transfer.memWrite hdev.addr 6 d3,
         Transfer.memRead hdev.addr 6, Transfer.memRead hdev.addr 7,
         Transfer.memWrite hdev.addr 6 d4, Transfer.memWrite hdev.addr 7 d5,
         Transfer.memWrite hdev.addr 7 d6, Transfer.memWrite hdev.addr 8 d7] := by
  rw [PCA9555_pinMode_eq]
  obtain ⟨h1, hst, d0, d1, d2, d3, hlog⟩ := PCA9555_updateRegisterBit_ok_log hdev pin
    (if polarity = PCA9555_POLARITY_INVERTED then 1 else 0) PCA9555_CB_POL_INVERT_PORTS
    bus (fun k hk => h k (by omega))
  rw [if_neg (by rw [h1]; exact fun h => h rfl)]
  have hlen : (PCA9555_updateRegisterBit hdev pin
      (if polarity = PCA9555_POLARITY_INVERTED then 1 else 0) PCA9555_CB_POL_INVERT_PORTS
      bus).2.log.length = bus.log.length + 6 := by simp [hlog]
  obtain ⟨g1, -, e0, e1, e2, e3, glog⟩ := PCA9555_updateRegisterBit_ok_log hdev pin
    (if mode = PCA9555_PIN_INPUT_MODE then 1 else 0) PCA9555_CB_CONFIG_PORTS
    (PCA9555_updateRegisterBit hdev pin
      (if polarity = PCA9555_POLARITY_INVERTED then 1 else 0) PCA9555_CB_POL_INVERT_PORTS
      bus).2
    (fun k hk => by rw [hst, hlen, Nat.add_assoc]; exact h (6 + k) (by omega))
  rw [if_neg (by rw [g1]; exact fun h => h rfl)]
  refine ⟨rfl, d0, d1, d2, d3, e0, e1, e2, e3, ?_⟩
  simp only [glog, hlog]
  simp [PCA9555_CB_POL_INVERT_PORTS, PCA9555_CB_CONFIG_PORTS]

theorem PCA9555_pinMode_ret_ok (hdev : PCA9555_Handle) (pin : Nat) (mode : PCA9555_PinMode)
    (polarity : PCA9555_PinPolarity) (bus : I2C_HandleTypeDef)
    (hret : (PCA9555_pinMode hdev pin mode polarity bus).1 = HAL_OK) :
    ∀ k < 12, bus.status (bus.log.length + k) = HAL_OK := by
  by_contra hcon
  push_neg at hcon
  have hex : ∃ k, bus.status (bus.log.length + k) ≠ HAL_OK := by
    obtain ⟨k, -, hk⟩ := hcon
    exact ⟨k, hk⟩
  have hi12 : Nat.find hex < 12 := by
    obtain ⟨k, hk12, hk⟩ := hcon
    exact lt_of_le_of_lt (Nat.find_min' hex hk) hk12
  have hok : ∀ k < Nat.find hex, bus.status (bus.log.length + k) = HAL_OK := by
    intro k hk
    exact not_not.mp (Nat.find_min hex hk)
  obtain ⟨h1, -, -⟩ := PCA9555_pinMode_fail hdev pin mode polarity bus (Nat.find hex) _ hi12
    hok rfl (Nat.find_spec hex)
  exact Nat.find_spec hex (h1.symm.trans hret)

theorem PCA9555_digitalWrite_fail (hdev : PCA9555_Handle) (pin : Nat) (pinState : GPIO_PinState)
    (bus : I2C_HandleTypeDef) (i : Nat) (e : HAL_StatusTypeDef) (hi : i < 4)
    (hok : ∀ k < i, bus.status (bus.log.length + k) = HAL_OK)
    (hfail : bus.status (bus.log.length + i) = e) (he : e ≠ HAL_OK) :
    (PCA9555_digitalWrite hdev pin pinState bus).1 = e ∧
    bus.log <+: (PCA9555_digitalWrite hdev pin pinState bus).2.log ∧
    (PCA9555_digitalWrite hdev pin pinState bus).2.log.length = bus.log.length + (i + 1) := by
  have h0 := hok 0
  have h1 := hok 1
  have h2 := hok 2
  simp only [Nat.add_zero] at h0
  interval_cases i <;>
  simp_all [PCA9555_digitalWrite, PCA9555_readRegister, PCA9555_writeRegister,
    HAL_I2C_Mem_Read, HAL_I2C_Mem_Write, Nat.add_assoc]

theorem PCA9555_digitalRead_fail (hdev : PCA9555_Handle) (pin pinValue : Nat)
    (bus : I2C_HandleTypeDef) (i : Nat) (e : HAL_StatusTypeDef) (hi : i < 2)
    (hok : ∀ k < i, bus.status (bus.log.length + k) = HAL_OK)
    (hfail : bus.status (bus.log.length + i) = e) (he : e ≠ HAL_OK) :
    (PCA9555_digitalRead hdev pin pinValue bus).1 = e ∧
    bus.log <+: (PCA9555_digitalRead hdev pin pinValue bus).2.2.log ∧
    (PCA9555_digitalRead hdev pin pinValue bus).2.2.log.length = bus.log.length + (i + 1) := by
  have h0 := hok 0
  simp only [Nat.add_zero] at h0
  interval_cases i <;>
  simp_all [PCA9555_digitalRead, PCA9555_readRegister, HAL_I2C_Mem_Read, Nat.add_assoc]

/-! ## Bit manipulation macros against the specification's `with_bit` -/

theorem or_two_pow_eq_add (u p : Nat) (h : u.testBit p = false) : u ||| 2 ^ p = u + 2 ^ p := by
  have hr : u % 2 ^ (p + 1) < 2 ^ p := by
    apply Nat.lt_pow_two_of_testBit
    intro i hi
    rw [Nat.testBit_mod_two_pow]
    by_cases hip : i = p
    · subst hip
      simp [h]
    · have : ¬ i < p + 1 := by omega
      simp [this]
  have hdecomp : u = 2 ^ (p + 1) * (u / 2 ^ (p + 1)) + u % 2 ^ (p + 1) :=
    (Nat.div_add_mod u (2 ^ (p + 1))).symm
  have hpow : 2 ^ (p + 1) = 2 ^ p * 2 := pow_succ 2 p
  have hlt : 2 ^ p + u % 2 ^ (p + 1) < 2 ^ (p + 1) := by
    omega
  have h1 : u = 2 ^ (p + 1) * (u / 2 ^ (p + 1)) ||| u % 2 ^ (p + 1) := by
    rw [← Nat.mul_add_lt_is_or (Nat.mod_lt _ (Nat.two_pow_pos _))]
    exact hdecomp
  have h2 : 2 ^ p + u % 2 ^ (p + 1) = 2 ^ p ||| u % 2 ^ (p + 1) := by
    have := Nat.mul_add_lt_is_or hr 1
    rwa [Nat.mul_one] at this
  have h3 : u + 2 ^ p = 2 ^ (p + 1) * (u / 2 ^ (p + 1)) ||| (2 ^ p + u % 2 ^ (p + 1)) := by
    rw [← Nat.mul_add_lt_is_or hlt]
    omega
  rw [h3, h2]
  conv_lhs => rw [h1]
  rw [Nat.or_assoc, Nat.or_comm (u % 2 ^ (p + 1)) (2 ^ p)]

theorem one_shiftLeft_mod (p : Nat) (hp : p < 16) : (1 <<< p) % 4294967296 = 2 ^ p := by
  rw [Nat.one_shiftLeft]
  apply Nat.mod_eq_of_lt
  calc 2 ^ p < 2 ^ 16 := Nat.pow_lt_pow_right (by decide) hp
    _ < 4294967296 := by decide

theorem two_pow_lt_of_lt_16 (p : Nat) (hp : p < 16) : 2 ^ p < 2 ^ 16 :=
  Nat.pow_lt_pow_right (by decide) hp

theorem bitSet_eq (v p : Nat) (hv : v < 65536) (hp : p < 16) :
    bitSet v p = if v.testBit p then v else v + 2 ^ p := by
  unfold bitSet
  rw [one_shiftLeft_mod p hp]
  have hlt : v ||| 2 ^ p < 65536 := Nat.or_lt_two_pow (n := 16) hv (two_pow_lt_of_lt_16 p hp)
  rw [Nat.mod_eq_of_lt hlt]
  by_cases h : v.testBit p = true
  · rw [if_pos h]
    apply Nat.eq_of_testBit_eq
    intro i
    rw [Nat.testBit_or, Nat.testBit_two_pow]
    by_cases hip : p = i
    · subst hip
      simp [h]
    · simp [hip]
  · rw [if_neg h]
    exact or_two_pow_eq_add v p (by simpa using h)

theorem bitClear_testBit (v p i : Nat) (hv : v < 65536) :
    (v &&& (0xFFFFFFFF ^^^ 2 ^ p)).testBit i = (v.testBit i && decide (i ≠ p)) := by
  rw [Nat.testBit_and, Nat.testBit_xor, Nat.testBit_two_pow]
  have h32 : (0xFFFFFFFF : Nat) = 2 ^ 32 - 1 := by decide
  rw [h32, Nat.testBit_two_pow_sub_one]
  by_cases hi : i < 32
  · by_cases hip : p = i
    · subst hip
      simp [hi]
    · have : i ≠ p := fun h => hip h.symm
      simp [hi, hip, this]
  · have hvi : v.testBit i = false := by
      apply Nat.testBit_lt_two_pow
      calc v < 2 ^ 16 := hv
        _ ≤ 2 ^ i := Nat.pow_le_pow_right (by decide) (by omega)
    simp [hvi]

theorem bitClear_eq (v p : Nat) (hv : v < 65536) (hp : p < 16) :
    bitClear v p = if v.testBit p then v - 2 ^ p else v := by
  unfold bitClear
  rw [one_shiftLeft_mod p hp]
  have hlt : v &&& (0xFFFFFFFF ^^^ 2 ^ p) < 65536 := lt_of_le_of_lt Nat.and_le_left hv
  rw [Nat.mod_eq_of_lt hlt]
  by_cases h : v.testBit p = true
  · rw [if_pos h]
    have hu : (v &&& (0xFFFFFFFF ^^^ 2 ^ p)).testBit p = false := by
      rw [bitClear_testBit v p p hv]
      simp
    have hv' : (v &&& (0xFFFFFFFF ^^^ 2 ^ p)) ||| 2 ^ p = v := by
      apply Nat.eq_of_testBit_eq
      intro i
      rw [Nat.testBit_or, bitClear_testBit v p i hv, Nat.testBit_two_pow]
      by_cases hip : p = i
      · subst hip
        simp [h]
      · have : i ≠ p := fun h => hip h.symm
        simp [hip, this]
    rw [or_two_pow_eq_add _ p hu] at hv'
    omega
  · rw [if_neg h]
    apply Nat.eq_of_testBit_eq
    intro i
    rw [bitClear_testBit v p i hv]
    by_cases hip : i = p
    · subst hip
      simpa using h
    · simp [hip]

theorem bitWrite_eq_spec_with_bit (v p l : Nat) (hv : v < 65536) (hp : p < 16) :
    bitWrite v p l = spec_with_bit v p (decide (l ≠ 0)) := by
  unfold bitWrite spec_with_bit
  by_cases hl : l ≠ 0
  · rw [if_pos hl, if_pos (decide_eq_true hl)]
    exact bitSet_eq v p hv hp
  · rw [if_neg hl, if_neg (by simpa using hl)]
    exact bitClear_eq v p hv hp

theorem bitWrite_lt (v p l : Nat) : bitWrite v p l < 65536 := by
  unfold bitWrite bitSet bitClear
  split <;> exact Nat.mod_lt _ (by decide)

/-! ## Successful runs of the pin operations -/

theorem PCA9555_digitalWrite_ok (hdev : PCA9555_Handle) (pin : Nat) (pinState : GPIO_PinState)
    (bus : I2C_HandleTypeDef) (h : ∀ k < 4, bus.status (bus.log.length + k) = HAL_OK) :
    PCA9555_digitalWrite hdev pin pinState bus =
      (HAL_OK,
        { bus with
          regs := fun x =>
            if x = 3 then
              highByte (bitWrite (((bus.regs 2 % 256) <<< 8 ||| bus.regs 3 % 256) % 65536)
                pin pinState.toNat)
            else if x = 2 then
              lowByte (bitWrite (((bus.regs 2 % 256) <<< 8 ||| bus.regs 3 % 256) % 65536)
                pin pinState.toNat)
            else bus.regs x,
          log := bus.log ++
            [Transfer.memRead hdev.addr 2, Transfer.memRead hdev.addr 3,
             Transfer.memWrite hdev.addr 2
               (lowByte (bitWrite (((bus.regs 2 % 256) <<< 8 ||| bus.regs 3 % 256) % 65536)
                 pin pinState.toNat)),
             Transfer.memWrite hdev.addr 3
               (highByte (bitWrite (((bus.regs 2 % 256) <<< 8 ||| bus.regs 3 % 256) % 65536)
                 pin pinState.toNat))] }) := by
  have h0 := h 0 (by omega)
  have h1 := h 1 (by omega)
  have h2 := h 2 (by omega)
  have h3 := h 3 (by omega)
  simp only [Nat.add_zero] at h0
  simp [PCA9555_digitalWrite, PCA9555_readRegister, PCA9555_writeRegister,
    HAL_I2C_Mem_Read, HAL_I2C_Mem_Write, PCA9555_CB_OUTPUTS_PORTS, Nat.add_assoc,
    h0, h1, h2, h3]

theorem PCA9555_digitalRead_ok (hdev : PCA9555_Handle) (pin pinValue : Nat)
    (bus : I2C_HandleTypeDef) (h : ∀ k < 2, bus.status (bus.log.length + k) = HAL_OK) :
    PCA9555_digitalRead hdev pin pinValue bus =
      (HAL_OK,
        bitRead (((bus.regs 0 % 256) <<< 8 ||| bus.regs 1 % 256) % 65536) pin % 256,
        { bus with log := bus.log ++
            [Transfer.memRead hdev.addr 0, Transfer.memRead hdev.addr 1] }) := by
  have h0 := h 0 (by omega)
  have h1 := h 1 (by omega)
  simp only [Nat.add_zero] at h0
  simp [PCA9555_digitalRead, PCA9555_readRegister, HAL_I2C_Mem_Read,
    PCA9555_CB_INPUTS_PORTS, h0, h1]

theorem PCA9555_init_absent :
    (PCA9555_init { hi2c := 0, addr := 0 } 7 0x21 (mkBusAbsent [] HAL_ERROR)).1 = HAL_ERROR ∧
    (PCA9555_init { hi2c := 0, addr := 0 } 7 0x21 (mkBusAbsent [] HAL_ERROR)).2.2.probes =
      [(0x42, 20, 500)] := by
  decide

/-! ## The claims -/

/-- C1 (the code departs from the claim): with the Output register presenting
R = 0x0100 (byte 0x00 at command byte 0x02, byte 0x01 at command byte 0x03),
`PCA9555_digitalWrite (pin 3, GPIO_PIN_SET)` succeeds and writes 0x09 to
command byte 0x02 and 0x00 to command byte 0x03, whereas the claim requires
low (with_bit (R, 3, High)) = 0x08 at 0x02 and high (with_bit (R, 3, High)) =
0x01 at 0x03: the register is modified with its two bytes exchanged. -/
theorem digitalWrite_exchanges_output_bytes :
    (PCA9555_digitalWrite hdev0 3 GPIO_PinState.GPIO_PIN_SET (mkBus [0, 0, 0x00, 0x01])).1
      = HAL_OK ∧
    (PCA9555_digitalWrite hdev0 3 GPIO_PinState.GPIO_PIN_SET (mkBus [0, 0, 0x00, 0x01])).2.log
      = [Transfer.memRead 0x42 0x02, Transfer.memRead 0x42 0x03,
         Transfer.memWrite 0x42 0x02 0x09, Transfer.memWrite 0x42 0x03 0x00] ∧
    spec_read16 0x00 0x01 = 0x0100 ∧
    spec_low_byte (spec_with_bit 0x0100 3 true) = 0x08 ∧
    spec_high_byte (spec_with_bit 0x0100 3 true) = 0x01 := by
  decide

/-- C2 (the code departs from the claim): with the Input register reading
0x0200 (byte 0x00 at command byte 0x00, byte 0x02 at command byte 0x01), whose
bit 9 is set, `PCA9555_digitalRead (pin 9)` succeeds and stores 0 (Low) in
`*pinValue`, while for pin 1 it stores 1 (High) although bit 1 is clear. -/
theorem digitalRead_reads_exchanged_bytes :
    (PCA9555_digitalRead hdev0 9 0xAA (mkBus [0x00, 0x02])).1 = HAL_OK ∧
    (PCA9555_digitalRead hdev0 9 0xAA (mkBus [0x00, 0x02])).2.1 = 0 ∧
    (spec_read16 0x00 0x02).testBit 9 = true ∧
    (PCA9555_digitalRead hdev0 1 0xAA (mkBus [0x00, 0x02])).1 = HAL_OK ∧
    (PCA9555_digitalRead hdev0 1 0xAA (mkBus [0x00, 0x02])).2.1 = 1 ∧
    (spec_read16 0x00 0x02).testBit 1 = false := by
  decide

/-- C3 (the code departs from the claim): from polarity bytes 0x01 / 0x00 at
command bytes 0x04 / 0x05 and configuration bytes 0x01 / 0x00 at 0x06 / 0x07,
`PCA9555_pinMode (pin 5, input, inverted)` succeeds and leaves polarity bytes
0x20 / 0x01 and configuration bytes 0x20 / 0x00, whereas the old values with
bit 5 set are 0x21 / 0x00 for both registers. -/
theorem pinMode_loses_register_bits :
    (PCA9555_pinMode hdev0 5 PCA9555_PIN_INPUT_MODE PCA9555_POLARITY_INVERTED
      (mkBus [0, 0, 0, 0, 0x01, 0x00, 0x01, 0x00])).1 = HAL_OK ∧
    (PCA9555_pinMode hdev0 5 PCA9555_PIN_INPUT_MODE PCA9555_POLARITY_INVERTED
      (mkBus [0, 0, 0, 0, 0x01, 0x00, 0x01, 0x00])).2.regs 0x04 = 0x20 ∧
    (PCA9555_pinMode hdev0 5 PCA9555_PIN_INPUT_MODE PCA9555_POLARITY_INVERTED
      (mkBus [0, 0, 0, 0, 0x01, 0x00, 0x01, 0x00])).2.regs 0x05 = 0x01 ∧
    (PCA9555_pinMode hdev0 5 PCA9555_PIN_INPUT_MODE PCA9555_POLARITY_INVERTED
      (mkBus [0, 0, 0, 0, 0x01, 0x00, 0x01, 0x00])).2.regs 0x06 = 0x20 ∧
    (PCA9555_pinMode hdev0 5 PCA9555_PIN_INPUT_MODE PCA9555_POLARITY_INVERTED
      (mkBus [0, 0, 0, 0, 0x01, 0x00, 0x01, 0x00])).2.regs 0x07 = 0x00 ∧
    spec_low_byte (spec_with_bit (spec_read16 0x01 0x00) 5 true) = 0x21 ∧
    spec_high_byte (spec_with_bit (spec_read16 0x01 0x00) 5 true) = 0x00 := by
  decide

/-- C4 (the code departs from the claim): with byte 0x34 at command byte 0x00
and byte 0x12 at command byte 0x01, `PCA9555_readRegister` at base 0x00 reads
0x00 and then 0x01 and succeeds, but returns 0x3412: the byte at the lower
command byte becomes bits 8..15, where the claim requires
0x34 | (0x12 << 8) = 0x1234. -/
theorem readRegister_puts_base_byte_high :
    (PCA9555_readRegister hdev0 0x00 0 (mkBus [0x34, 0x12])).1 = HAL_OK ∧
    (PCA9555_readRegister hdev0 0x00 0 (mkBus [0x34, 0x12])).2.1 = 0x3412 ∧
    (PCA9555_readRegister hdev0 0x00 0 (mkBus [0x34, 0x12])).2.2.log =
      [Transfer.memRead 0x42 0x00, Transfer.memRead 0x42 0x01] ∧
    spec_read16 0x34 0x12 = 0x1234 := by
  decide

/-- C5: a register write (`PCA9555_writeRegister`) of a 16-bit value `v` to base
command byte `b` whose transfers succeed returns `HAL_OK` and issues exactly
two byte writes, first `v & 0xFF` to `b` and then `v >> 8` to `b + 1`. -/
theorem writeRegister_byte_order (hdev : PCA9555_Handle) (b v : Nat) (bus : I2C_HandleTypeDef)
    (hv : v < 65536)
    (h0 : bus.status bus.log.length = HAL_OK)
    (h1 : bus.status (bus.log.length + 1) = HAL_OK) :
    (PCA9555_writeRegister hdev b v bus).1 = HAL_OK ∧
    (PCA9555_writeRegister hdev b v bus).2.log =
      bus.log ++ [Transfer.memWrite hdev.addr b (v &&& 0xFF),
                  Transfer.memWrite hdev.addr (b + 1) (v >>> 8)] := by
  have hlo : lowByte v = v &&& 0xFF := by
    unfold lowByte
    exact Nat.mod_eq_of_lt (lt_of_le_of_lt Nat.and_le_right (by decide))
  have hhi : highByte v = v >>> 8 := by
    unfold highByte
    rw [Nat.shiftRight_eq_div_pow]
    omega
  rw [PCA9555_writeRegister_ok hdev b v bus h0 h1, hlo, hhi]
  exact ⟨rfl, rfl⟩

theorem writeRegister_byte_order_witness :
    (PCA9555_writeRegister hdev0 0x02 0xEFFF (mkBus [])).1 = HAL_OK ∧
    (PCA9555_writeRegister hdev0 0x02 0xEFFF (mkBus [])).2.log =
      [Transfer.memWrite 0x42 0x02 0xFF, Transfer.memWrite 0x42 0x03 0xEF] :=
  writeRegister_byte_order hdev0 0x02 0xEFFF (mkBus []) (by decide) rfl rfl

/-- C6 (the code departs from the claim): with byte 0x34 at command byte 0x02
and byte 0x12 at command byte 0x03, `PCA9555_readRegister` at base 0x02
followed by `PCA9555_writeRegister` of the value just read succeeds and writes
0x12 to 0x02 and 0x34 to 0x03: the chip ends with its two bytes exchanged
instead of unchanged. -/
theorem read_then_write_exchanges_bytes :
    (PCA9555_writeRegister hdev0 0x02
      (PCA9555_readRegister hdev0 0x02 0 (mkBus [0, 0, 0x34, 0x12])).2.1
      (PCA9555_readRegister hdev0 0x02 0 (mkBus [0, 0, 0x34, 0x12])).2.2).1 = HAL_OK ∧
    (PCA9555_writeRegister hdev0 0x02
      (PCA9555_readRegister hdev0 0x02 0 (mkBus [0, 0, 0x34, 0x12])).2.1
      (PCA9555_readRegister hdev0 0x02 0 (mkBus [0, 0, 0x34, 0x12])).2.2).2.log =
      [Transfer.memRead 0x42 0x02, Transfer.memRead 0x42 0x03,
       Transfer.memWrite 0x42 0x02 0x12, Transfer.memWrite 0x42 0x03 0x34] ∧
    (mkBus [0, 0, 0x34, 0x12]).regs 0x02 = 0x34 ∧
    (mkBus [0, 0, 0x34, 0x12]).regs 0x03 = 0x12 ∧
    (PCA9555_writeRegister hdev0 0x02
      (PCA9555_readRegister hdev0 0x02 0 (mkBus [0, 0, 0x34, 0x12])).2.1
      (PCA9555_readRegister hdev0 0x02 0 (mkBus [0, 0, 0x34, 0x12])).2.2).2.regs 0x02 = 0x12 ∧
    (PCA9555_writeRegister hdev0 0x02
      (PCA9555_readRegister hdev0 0x02 0 (mkBus [0, 0, 0x34, 0x12])).2.1
      (PCA9555_readRegister hdev0 0x02 0 (mkBus [0, 0, 0x34, 0x12])).2.2).2.regs 0x03 = 0x34 := by
  decide

/-- C7 (the code departs from the claim): on an all-zero chip the polarity
step of `PCA9555_pinMode` (base 0x04) also writes command byte 0x06 and the
configuration step (base 0x06) also writes command byte 0x08, outside their
register pairs; and `PCA9555_digitalWrite` on pin 0 (a port-0 pin), having read
0xAA from 0x02 and 0x55 from 0x03, writes 0xAA to 0x03 instead of the 0x55 it
read there. -/
theorem read_modify_write_leaves_register_pair :
    (PCA9555_pinMode hdev0 5 PCA9555_PIN_INPUT_MODE PCA9555_POLARITY_INVERTED
      (mkBus [])).1 = HAL_OK ∧
    (PCA9555_pinMode hdev0 5 PCA9555_PIN_INPUT_MODE PCA9555_POLARITY_INVERTED
      (mkBus [])).2.log =
      [Transfer.memRead 0x42 0x04, Transfer.memRead 0x42 0x05,
       Transfer.memWrite 0x42 0x04 0x20, Transfer.memWrite 0x42 0x05 0x00,
       Transfer.memWrite 0x42 0x05 0x00, Transfer.memWrite 0x42 0x06 0x00,
       Transfer.memRead 0x42 0x06, Transfer.memRead 0x42 0x07,
       Transfer.memWrite 0x42 0x06 0x20, Transfer.memWrite 0x42 0x07 0x00,
       Transfer.memWrite 0x42 0x07 0x00, Transfer.memWrite 0x42 0x08 0x00] ∧
    (PCA9555_digitalWrite hdev0 0 GPIO_PinState.GPIO_PIN_SET
      (mkBus [0, 0, 0xAA, 0x55])).1 = HAL_OK ∧
    (PCA9555_digitalWrite hdev0 0 GPIO_PinState.GPIO_PIN_SET
      (mkBus [0, 0, 0xAA, 0x55])).2.log =
      [Transfer.memRead 0x42 0x02, Transfer.memRead 0x42 0x03,
       Transfer.memWrite 0x42 0x02 0x55, Transfer.memWrite 0x42 0x03 0xAA] := by
  decide

/-- C8: early exit on transport failure.  If the transport fails the i-th byte
transfer of `PCA9555_digitalWrite` (i < 4), `PCA9555_digitalRead` (i < 2) or
`PCA9555_pinMode` (i < 12) with status `e` and all earlier transfers succeed,
the operation returns exactly `e` and its log is the old log followed by
exactly `i + 1` transfers: nothing is issued after the failed one. -/
theorem early_exit_on_transport_failure (hdev : PCA9555_Handle) (pin pinValue : Nat)
    (pinState : GPIO_PinState) (mode : PCA9555_PinMode) (polarity : PCA9555_PinPolarity)
    (bus : I2C_HandleTypeDef) (i : Nat) (e : HAL_StatusTypeDef) (he : e ≠ HAL_OK)
    (hok : ∀ k < i, bus.status (bus.log.length + k) = HAL_OK)
    (hfail : bus.status (bus.log.length + i) = e) :
    (i < 4 →
      (PCA9555_digitalWrite hdev pin pinState bus).1 = e ∧
      bus.log <+: (PCA9555_digitalWrite hdev pin pinState bus).2.log ∧
      (PCA9555_digitalWrite hdev pin pinState bus).2.log.length = bus.log.length + (i + 1)) ∧
    (i < 2 →
      (PCA9555_digitalRead hdev pin pinValue bus).1 = e ∧
      bus.log <+: (PCA9555_digitalRead hdev pin pinValue bus).2.2.log ∧
      (PCA9555_digitalRead hdev pin pinValue bus).2.2.log.length = bus.log.length + (i + 1)) ∧
    (i < 12 →
      (PCA9555_pinMode hdev pin mode polarity bus).1 = e ∧
      bus.log <+: (PCA9555_pinMode hdev pin mode polarity bus).2.log ∧
      (PCA9555_pinMode hdev pin mode polarity bus).2.log.length = bus.log.length + (i + 1)) :=
  ⟨fun hi => PCA9555_digitalWrite_fail hdev pin pinState bus i e hi hok hfail he,
   fun hi => PCA9555_digitalRead_fail hdev pin pinValue bus i e hi hok hfail he,
   fun hi => PCA9555_pinMode_fail hdev pin mode polarity bus i e hi hok hfail he⟩

theorem early_exit_on_transport_failure_witness :
    (PCA9555_pinMode hdev0 5 PCA9555_PIN_INPUT_MODE PCA9555_POLARITY_INVERTED
      (mkBusFailing [] 7 HAL_TIMEOUT)).1 = HAL_TIMEOUT ∧
    (PCA9555_pinMode hdev0 5 PCA9555_PIN_INPUT_MODE PCA9555_POLARITY_INVERTED
      (mkBusFailing [] 7 HAL_TIMEOUT)).2.log.length = 8 :=
  have h := (early_exit_on_transport_failure hdev0 5 0 GPIO_PinState.GPIO_PIN_SET
    PCA9555_PIN_INPUT_MODE PCA9555_POLARITY_INVERTED (mkBusFailing [] 7 HAL_TIMEOUT)
    7 HAL_TIMEOUT (by decide) (by decide) rfl).2.2 (by decide)
  ⟨h.1, h.2.2⟩

/-- C9: polarity before direction.  In the transfers of a `PCA9555_pinMode`
call that returns `HAL_OK`, every write to command byte 0x04 or 0x05 stands at
a strictly smaller position than every write to command byte 0x06 or 0x07. -/
theorem pinMode_polarity_before_direction (hdev : PCA9555_Handle) (pin : Nat)
    (mode : PCA9555_PinMode) (polarity : PCA9555_PinPolarity) (bus : I2C_HandleTypeDef)
    (hret : (PCA9555_pinMode hdev pin mode polarity bus).1 = HAL_OK)
    (i j di dj ai aj vi vj : Nat)
    (hi : ((PCA9555_pinMode hdev pin mode polarity bus).2.log.drop bus.log.length)[i]? =
      some (Transfer.memWrite di ai vi))
    (hai : ai = 0x04 ∨ ai = 0x05)
    (hj : ((PCA9555_pinMode hdev pin mode polarity bus).2.log.drop bus.log.length)[j]? =
      some (Transfer.memWrite dj aj vj))
    (haj : aj = 0x06 ∨ aj = 0x07) :
    i < j := by
  obtain ⟨-, d0, d1, d2, d3, d4, d5, d6, d7, hlog⟩ :=
    PCA9555_pinMode_ok_log hdev pin mode polarity bus
      (PCA9555_pinMode_ret_ok hdev pin mode polarity bus hret)
  rw [hlog, List.drop_left] at hi hj
  have hi12 : i < 12 := by
    have := (List.getElem?_eq_some_iff.mp hi).1
    simpa using this
  have hj12 : j < 12 := by
    have := (List.getElem?_eq_some_iff.mp hj).1
    simpa using this
  clear hlog hret
  have hI : i = 2 ∨ i = 3 ∨ i = 4 := by
    interval_cases i <;> simp at hi <;> omega
  have hJ : j = 5 ∨ j = 8 ∨ j = 9 ∨ j = 10 := by
    interval_cases j <;> simp at hj <;> omega
  omega

theorem pinMode_polarity_before_direction_witness :
    ((PCA9555_pinMode hdev0 5 PCA9555_PIN_INPUT_MODE PCA9555_POLARITY_INVERTED
      (mkBus [])).2.log.drop (mkBus []).log.length)[4]? =
      some (Transfer.memWrite 0x42 0x05 0x00) ∧
    ((PCA9555_pinMode hdev0 5 PCA9555_PIN_INPUT_MODE PCA9555_POLARITY_INVERTED
      (mkBus [])).2.log.drop (mkBus []).log.length)[5]? =
      some (Transfer.memWrite 0x42 0x06 0x00) ∧
    4 < 5 :=
  ⟨by decide, by decide,
   pinMode_polarity_before_direction hdev0 5 PCA9555_PIN_INPUT_MODE PCA9555_POLARITY_INVERTED
     (mkBus []) (by decide) 4 5 0x42 0x42 0x05 0x06 0x00 0x00 (by decide) (by decide)
     (by decide) (by decide)⟩

/-- C10 (the code departs from the claim): from polarity bytes 0x01 / 0x00 and
configuration bytes 0xFF / 0xFF, with the six transfers of the polarity step
succeeding and the first transfer of the configuration step failing with
`HAL_ERROR`, `PCA9555_pinMode (pin 5, input, inverted)` returns `HAL_ERROR`
after seven transfers, but configuration byte 0x06 is 0x00 instead of its old
0xFF and the polarity bytes are 0x20 / 0x01 instead of 0x21 / 0x00. -/
theorem pinMode_failure_clobbers_configuration :
    (PCA9555_pinMode hdev0 5 PCA9555_PIN_INPUT_MODE PCA9555_POLARITY_INVERTED
      (mkBusFailing [0, 0, 0, 0, 0x01, 0x00, 0xFF, 0xFF] 6 HAL_ERROR)).1 = HAL_ERROR ∧
    (PCA9555_pinMode hdev0 5 PCA9555_PIN_INPUT_MODE PCA9555_POLARITY_INVERTED
      (mkBusFailing [0, 0, 0, 0, 0x01, 0x00, 0xFF, 0xFF] 6 HAL_ERROR)).2.log =
      [Transfer.memRead 0x42 0x04, Transfer.memRead 0x42 0x05,
       Transfer.memWrite 0x42 0x04 0x20, Transfer.memWrite 0x42 0x05 0x00,
       Transfer.memWrite 0x42 0x05 0x01, Transfer.memWrite 0x42 0x06 0x00,
       Transfer.memRead 0x42 0x06] ∧
    (mkBusFailing [0, 0, 0, 0, 0x01, 0x00, 0xFF, 0xFF] 6 HAL_ERROR).regs 0x06 = 0xFF ∧
    (PCA9555_pinMode hdev0 5 PCA9555_PIN_INPUT_MODE PCA9555_POLARITY_INVERTED
      (mkBusFailing [0, 0, 0, 0, 0x01, 0x00, 0xFF, 0xFF] 6 HAL_ERROR)).2.regs 0x06 = 0x00 ∧
    (PCA9555_pinMode hdev0 5 PCA9555_PIN_INPUT_MODE PCA9555_POLARITY_INVERTED
      (mkBusFailing [0, 0, 0, 0, 0x01, 0x00, 0xFF, 0xFF] 6 HAL_ERROR)).2.regs 0x07 = 0xFF ∧
    (PCA9555_pinMode hdev0 5 PCA9555_PIN_INPUT_MODE PCA9555_POLARITY_INVERTED
      (mkBusFailing [0, 0, 0, 0, 0x01, 0x00, 0xFF, 0xFF] 6 HAL_ERROR)).2.regs 0x04 = 0x20 ∧
    (PCA9555_pinMode hdev0 5 PCA9555_PIN_INPUT_MODE PCA9555_POLARITY_INVERTED
      (mkBusFailing [0, 0, 0, 0, 0x01, 0x00, 0xFF, 0xFF] 6 HAL_ERROR)).2.regs 0x05 = 0x01 := by
  decide

/-- C11 (the claim fails on the code): for pin index 16 `PCA9555_digitalRead`
is not rejected before the bus is touched: it is not the case that it returns
an error and leaves the transfer log as it was; it reads command bytes 0x00 and
0x01 and returns `HAL_OK`. -/
theorem invalid_pin_reaches_the_bus :
    ¬ ((PCA9555_digitalRead hdev0 16 0xAA (mkBus [0xFF, 0xFF])).1 ≠ HAL_OK ∧
       (PCA9555_digitalRead hdev0 16 0xAA (mkBus [0xFF, 0xFF])).2.2.log =
         (mkBus [0xFF, 0xFF]).log) := by
  decide

/-- C11 (amended): the driver has no pin check.  For every pin index p ≥ 16,
when the transfers succeed, `PCA9555_digitalWrite` issues its four transfers
(read 0x02, read 0x03, write 0x02, write 0x03) and returns `HAL_OK`,
`PCA9555_digitalRead` issues its two reads (0x00, 0x01) and returns `HAL_OK`,
and `PCA9555_pinMode` issues its twelve transfers and returns `HAL_OK`. -/
theorem invalid_pin_is_not_checked (hdev : PCA9555_Handle) (pin pinValue : Nat)
    (pinState : GPIO_PinState) (mode : PCA9555_PinMode) (polarity : PCA9555_PinPolarity)
    (bus : I2C_HandleTypeDef) (_hpin : 16 ≤ pin) :
    ((∀ k < 4, bus.status (bus.log.length + k) = HAL_OK) →
      (PCA9555_digitalWrite hdev pin pinState bus).1 = HAL_OK ∧
      ∃ d0 d1 : Nat, (PCA9555_digitalWrite hdev pin pinState bus).2.log = bus.log ++
        [Transfer.memRead hdev.addr 2, Transfer.memRead hdev.addr 3,
         Transfer.memWrite hdev.addr 2 d0, Transfer.memWrite hdev.addr 3 d1]) ∧
    ((∀ k < 2, bus.status (bus.log.length + k) = HAL_OK) →
      (PCA9555_digitalRead hdev pin pinValue bus).1 = HAL_OK ∧
      (PCA9555_digitalRead hdev pin pinValue bus).2.2.log = bus.log ++
        [Transfer.memRead hdev.addr 0, Transfer.memRead hdev.addr 1]) ∧
    ((∀ k < 12, bus.status (bus.log.length + k) = HAL_OK) →
      (PCA9555_pinMode hdev pin mode polarity bus).1 = HAL_OK ∧
      (PCA9555_pinMode hdev pin mode polarity bus).2.log.length = bus.log.length + 12) := by
  refine ⟨fun h => ?_, fun h => ?_, fun h => ?_⟩
  · rw [PCA9555_digitalWrite_ok hdev pin pinState bus h]
    exact ⟨rfl, _, _, rfl⟩
  · rw [PCA9555_digitalRead_ok hdev pin pinValue bus h]
    exact ⟨rfl, rfl⟩
  · obtain ⟨h1, d0, d1, d2, d3, d4, d5, d6, d7, hlog⟩ :=
      PCA9555_pinMode_ok_log hdev pin mode polarity bus h
    refine ⟨h1, ?_⟩
    rw [hlog]
    simp

theorem invalid_pin_is_not_checked_witness :
    (PCA9555_digitalRead hdev0 20 0xAA (mkBus [0x12, 0x34])).1 = HAL_OK ∧
    (PCA9555_digitalRead hdev0 20 0xAA (mkBus [0x12, 0x34])).2.2.log =
      [Transfer.memRead 0x42 0, Transfer.memRead 0x42 1] ∧
    (PCA9555_pinMode hdev0 20 PCA9555_PIN_INPUT_MODE PCA9555_POLARITY_INVERTED
      (mkBus [0x12, 0x34])).1 = HAL_OK ∧
    (PCA9555_pinMode hdev0 20 PCA9555_PIN_INPUT_MODE PCA9555_POLARITY_INVERTED
      (mkBus [0x12, 0x34])).2.log.length = 12 :=
  have h := invalid_pin_is_not_checked hdev0 20 0xAA GPIO_PinState.GPIO_PIN_SET
    PCA9555_PIN_INPUT_MODE PCA9555_POLARITY_INVERTED (mkBus [0x12, 0x34]) (by decide)
  ⟨(h.2.1 (fun _ _ => rfl)).1, (h.2.1 (fun _ _ => rfl)).2,
   (h.2.2 (fun _ _ => rfl)).1, (h.2.2 (fun _ _ => rfl)).2⟩

/-- C12: for every bus reference and every 7-bit address a ≤ 0x7F, when the
readiness probe at the shifted address is acknowledged `PCA9555_init` returns
`HAL_OK` and the handle holds the given bus and the device address a << 1,
which is 2 * a and has bit 0 clear. -/
theorem init_stores_shifted_address (hdev : PCA9555_Handle) (hi2c a : Nat)
    (bus : I2C_HandleTypeDef) (ha : a ≤ 0x7F) (hack : bus.ready (a <<< 1) = HAL_OK) :
    (PCA9555_init hdev hi2c a bus).1 = HAL_OK ∧
    (PCA9555_init hdev hi2c a bus).2.1.hi2c = hi2c ∧
    (PCA9555_init hdev hi2c a bus).2.1.addr = a <<< 1 ∧
    a <<< 1 = 2 * a ∧
    (PCA9555_init hdev hi2c a bus).2.1.addr % 2 = 0 := by
  have hshift : a <<< 1 = 2 * a := by
    rw [Nat.shiftLeft_eq]
    omega
  have hmod : (a <<< 1) % 65536 = a <<< 1 := by
    rw [hshift]
    omega
  have haddr : (PCA9555_init hdev hi2c a bus).2.1.addr = a <<< 1 := by
    simp [PCA9555_init, HAL_I2C_IsDeviceReady, hmod, hack]
  refine ⟨?_, ?_, haddr, hshift, ?_⟩
  · simp [PCA9555_init, HAL_I2C_IsDeviceReady, hmod, hack]
  · simp [PCA9555_init, HAL_I2C_IsDeviceReady, hmod, hack]
  · rw [haddr, hshift]
    omega

theorem init_stores_shifted_address_witness :
    (PCA9555_init { hi2c := 0, addr := 0 } 7 0x21 (mkBus [])).1 = HAL_OK ∧
    (PCA9555_init { hi2c := 0, addr := 0 } 7 0x21 (mkBus [])).2.1.hi2c = 7 ∧
    (PCA9555_init { hi2c := 0, addr := 0 } 7 0x21 (mkBus [])).2.1.addr = 0x42 :=
  have h := init_stores_shifted_address { hi2c := 0, addr := 0 } 7 0x21 (mkBus [])
    (by decide) rfl
  ⟨h.1, h.2.1, h.2.2.1⟩

/-- C13: for every bus and address, `PCA9555_init` issues exactly one readiness
probe, at the shifted address with 20 trials and a delay of 500, and returns
the status of that probe: `HAL_OK` if and only if the probe is acknowledged,
and otherwise the failure the probe reports. -/
theorem init_presence_check (hdev : PCA9555_Handle) (hi2c addr : Nat)
    (bus : I2C_HandleTypeDef) :
    ((PCA9555_init hdev hi2c addr bus).1 = HAL_OK ↔
      bus.ready ((addr <<< 1) % 65536) = HAL_OK) ∧
    (PCA9555_init hdev hi2c addr bus).1 = bus.ready ((addr <<< 1) % 65536) ∧
    (PCA9555_init hdev hi2c addr bus).2.2.probes =
      bus.probes ++ [((addr <<< 1) % 65536, 20, 500)] := by
  have hret : (PCA9555_init hdev hi2c addr bus).1 = bus.ready ((addr <<< 1) % 65536) := by
    unfold PCA9555_init HAL_I2C_IsDeviceReady
    by_cases h : bus.ready ((addr <<< 1) % 65536) = HAL_OK
    · simp [h]
    · simp [h]
  refine ⟨by rw [hret], hret, ?_⟩
  unfold PCA9555_init HAL_I2C_IsDeviceReady
  by_cases h : bus.ready ((addr <<< 1) % 65536) = HAL_OK
  · simp [h, I2C_READYNESS_DELAY]
  · simp [h, I2C_READYNESS_DELAY]

/-- C14: for every pin and every bus state, whether it succeeds or fails,
`PCA9555_digitalRead` leaves every chip register byte as it was and issues
only reads: a read of command byte 0x00, followed (when that read succeeds) by
a read of command byte 0x01. -/
theorem digitalRead_leaves_chip_unchanged (hdev : PCA9555_Handle) (pin pinValue : Nat)
    (bus : I2C_HandleTypeDef) :
    (PCA9555_digitalRead hdev pin pinValue bus).2.2.regs = bus.regs ∧
    ((PCA9555_digitalRead hdev pin pinValue bus).2.2.log =
        bus.log ++ [Transfer.memRead hdev.addr 0x00] ∨
     (PCA9555_digitalRead hdev pin pinValue bus).2.2.log =
        bus.log ++ [Transfer.memRead hdev.addr 0x00, Transfer.memRead hdev.addr 0x01]) := by
  unfold PCA9555_digitalRead PCA9555_readRegister HAL_I2C_Mem_Read
  by_cases h0 : bus.status bus.log.length = HAL_OK
  · by_cases h1 : bus.status (bus.log.length + 1) = HAL_OK
    · simp [h0, h1, PCA9555_CB_INPUTS_PORTS]
    · simp [h0, h1, PCA9555_CB_INPUTS_PORTS]
  · simp [h0, PCA9555_CB_INPUTS_PORTS]

/-- C15: for every bus, address and probe outcome, `PCA9555_init` issues no
register read and no register write: the transfer log and every chip register
byte are as before the call, and its only bus interaction is one readiness
probe. -/
theorem init_touches_no_register (hdev : PCA9555_Handle) (hi2c addr : Nat)
    (bus : I2C_HandleTypeDef) :
    (PCA9555_init hdev hi2c addr bus).2.2.regs = bus.regs ∧
    (PCA9555_init hdev hi2c addr bus).2.2.log = bus.log ∧
    (PCA9555_init hdev hi2c addr bus).2.2.probes =
      bus.probes ++ [((addr <<< 1) % 65536, 20, I2C_READYNESS_DELAY)] := by
  unfold PCA9555_init HAL_I2C_IsDeviceReady
  by_cases h : bus.ready ((addr <<< 1) % 65536) = HAL_OK
  · simp [h]
  · simp [h]

/-- C16 (the code departs from the claim): with polarity bytes 0x00 / 0x00 at
command bytes 0x04 / 0x05 and byte 0xFF at command byte 0x06, a successful
`PCA9555_updateRegisterBit (pin 5, bit value 1, base 0x04)` issues six
transfers, not four: after the two reads it writes 0x20 to 0x04, 0x00 to 0x05,
0x00 to 0x05 again and 0x00 to 0x06, which erases the byte at 0x06. -/
theorem updateRegisterBit_issues_six_transfers :
    (PCA9555_updateRegisterBit hdev0 5 1 0x04 (mkBus [0, 0, 0, 0, 0x00, 0x00, 0xFF])).1
      = HAL_OK ∧
    (PCA9555_updateRegisterBit hdev0 5 1 0x04 (mkBus [0, 0, 0, 0, 0x00, 0x00, 0xFF])).2.log =
      [Transfer.memRead 0x42 0x04, Transfer.memRead 0x42 0x05,
       Transfer.memWrite 0x42 0x04 0x20, Transfer.memWrite 0x42 0x05 0x00,
       Transfer.memWrite 0x42 0x05 0x00, Transfer.memWrite 0x42 0x06 0x00] ∧
    (mkBus [0, 0, 0, 0, 0x00, 0x00, 0xFF]).regs 0x06 = 0xFF ∧
    (PCA9555_updateRegisterBit hdev0 5 1 0x04
      (mkBus [0, 0, 0, 0, 0x00, 0x00, 0xFF])).2.regs 0x06 = 0x00 := by
  decide

/-- C17 (the code departs from the claim): with Output bytes 0x00 / 0x01 at
command bytes 0x02 / 0x03 and byte 0xFF at command byte 0x04, all transfers
succeeding, `PCA9555_digitalWrite (pin 3, GPIO_PIN_SET)` and
`PCA9555_updateRegisterBit (pin 3, bit value 1, base 0x02)` both return
`HAL_OK`, but the first issues four transfers and leaves 0x04 at 0xFF while the
second issues six transfers and leaves 0x04 at 0x00. -/
theorem digitalWrite_differs_from_updateRegisterBit :
    (PCA9555_digitalWrite hdev0 3 GPIO_PinState.GPIO_PIN_SET
      (mkBus [0, 0, 0x00, 0x01, 0xFF])).1 = HAL_OK ∧
    (PCA9555_updateRegisterBit hdev0 3 1 0x02 (mkBus [0, 0, 0x00, 0x01, 0xFF])).1 = HAL_OK ∧
    (PCA9555_digitalWrite hdev0 3 GPIO_PinState.GPIO_PIN_SET
      (mkBus [0, 0, 0x00, 0x01, 0xFF])).2.log =
      [Transfer.memRead 0x42 0x02, Transfer.memRead 0x42 0x03,
       Transfer.memWrite 0x42 0x02 0x09, Transfer.memWrite 0x42 0x03 0x00] ∧
    (PCA9555_updateRegisterBit hdev0 3 1 0x02 (mkBus [0, 0, 0x00, 0x01, 0xFF])).2.log =
      [Transfer.memRead 0x42 0x02, Transfer.memRead 0x42 0x03,
       Transfer.memWrite 0x42 0x02 0x09, Transfer.memWrite 0x42 0x03 0x00,
       Transfer.memWrite 0x42 0x03 0x00, Transfer.memWrite 0x42 0x04 0x00] ∧
    (PCA9555_digitalWrite hdev0 3 GPIO_PinState.GPIO_PIN_SET
      (mkBus [0, 0, 0x00, 0x01, 0xFF])).2.regs 0x04 = 0xFF ∧
    (PCA9555_updateRegisterBit hdev0 3 1 0x02
      (mkBus [0, 0, 0x00, 0x01, 0xFF])).2.regs 0x04 = 0x00 := by
  decide

/-- C18: net effect of `PCA9555_digitalWrite` as coded.  For every pin p < 16,
every level and all initial Output bytes b0 (at command byte 0x02) and b1 (at
command byte 0x03), when the four transfers succeed the call returns `HAL_OK`,
issues exactly read 0x02, read 0x03, write 0x02, write 0x03, and leaves
0x02 = W & 0xFF and 0x03 = W >> 8, where W is b0 * 256 + b1 with bit p set if
the level is non-zero and cleared otherwise; every other command byte is
unchanged.  When b0 = b1, W is the single-bit update of the register
b0 | (b1 << 8). -/
theorem digitalWrite_net_effect (hdev : PCA9555_Handle) (p : Nat) (l : GPIO_PinState)
    (bus : I2C_HandleTypeDef) (b0 b1 : Nat) (hp : p < 16) (hb0 : b0 < 256) (hb1 : b1 < 256)
    (hr0 : bus.regs 0x02 = b0) (hr1 : bus.regs 0x03 = b1)
    (hok : ∀ k < 4, bus.status (bus.log.length + k) = HAL_OK) :
    (PCA9555_digitalWrite hdev p l bus).1 = HAL_OK ∧
    (PCA9555_digitalWrite hdev p l bus).2.log = bus.log ++
      [Transfer.memRead hdev.addr 0x02, Transfer.memRead hdev.addr 0x03,
       Transfer.memWrite hdev.addr 0x02
         (spec_with_bit (b0 * 256 + b1) p (decide (l.toNat ≠ 0)) &&& 0xFF),
       Transfer.memWrite hdev.addr 0x03
         (spec_with_bit (b0 * 256 + b1) p (decide (l.toNat ≠ 0)) >>> 8)] ∧
    (PCA9555_digitalWrite hdev p l bus).2.regs 0x02 =
      spec_with_bit (b0 * 256 + b1) p (decide (l.toNat ≠ 0)) &&& 0xFF ∧
    (PCA9555_digitalWrite hdev p l bus).2.regs 0x03 =
      spec_with_bit (b0 * 256 + b1) p (decide (l.toNat ≠ 0)) >>> 8 ∧
    (∀ a, a ≠ 0x02 → a ≠ 0x03 → (PCA9555_digitalWrite hdev p l bus).2.regs a = bus.regs a) ∧
    (b0 = b1 → spec_with_bit (b0 * 256 + b1) p (decide (l.toNat ≠ 0)) =
      spec_with_bit (spec_read16 b0 b1) p (decide (l.toNat ≠ 0))) := by
  have hor : ∀ x y : Nat, y < 256 → x <<< 8 ||| y = x * 256 + y := by
    intro x y hy
    have h := Nat.mul_add_lt_is_or (i := 8) (b := y) hy x
    rw [Nat.shiftLeft_eq, Nat.mul_comm x (2 ^ 8), ← h]
  have hval : ((bus.regs 2 % 256) <<< 8 ||| bus.regs 3 % 256) % 65536 = b0 * 256 + b1 := by
    rw [hr0, hr1, Nat.mod_eq_of_lt hb0, Nat.mod_eq_of_lt hb1, hor b0 b1 hb1]
    omega
  have hW : bitWrite (b0 * 256 + b1) p l.toNat =
      spec_with_bit (b0 * 256 + b1) p (decide (l.toNat ≠ 0)) :=
    bitWrite_eq_spec_with_bit _ p _ (by omega) hp
  have hWlt : spec_with_bit (b0 * 256 + b1) p (decide (l.toNat ≠ 0)) < 65536 := by
    rw [← hW]
    exact bitWrite_lt _ _ _
  have hlo : ∀ w : Nat, lowByte w = w &&& 0xFF := by
    intro w
    unfold lowByte
    exact Nat.mod_eq_of_lt (lt_of_le_of_lt Nat.and_le_right (by decide))
  have hhi : ∀ w : Nat, w < 65536 → highByte w = w >>> 8 := by
    intro w hw
    unfold highByte
    rw [Nat.shiftRight_eq_div_pow]
    omega
  rw [PCA9555_digitalWrite_ok hdev p l bus hok, hval, hW, hlo, hhi _ hWlt]
  refine ⟨rfl, rfl, ?_, ?_, ?_, ?_⟩
  · simp
  · simp
  · intro a h2 h3
    simp [h2, h3]
  · intro hb
    subst hb
    have : spec_read16 b0 b0 = b0 * 256 + b0 := by
      unfold spec_read16
      rw [Nat.or_comm, hor b0 b0 hb0]
    rw [this]

theorem digitalWrite_net_effect_witness :
    (PCA9555_digitalWrite hdev0 3 GPIO_PinState.GPIO_PIN_SET (mkBus [0, 0, 0x00, 0x01])).1
      = HAL_OK ∧
    (PCA9555_digitalWrite hdev0 3 GPIO_PinState.GPIO_PIN_SET
      (mkBus [0, 0, 0x00, 0x01])).2.log =
      [Transfer.memRead 0x42 0x02, Transfer.memRead 0x42 0x03,
       Transfer.memWrite 0x42 0x02 (spec_with_bit (0x00 * 256 + 0x01) 3 true &&& 0xFF),
       Transfer.memWrite 0x42 0x03 (spec_with_bit (0x00 * 256 + 0x01) 3 true >>> 8)] ∧
    spec_with_bit (0x00 * 256 + 0x01) 3 true = 0x0009 :=
  have h := digitalWrite_net_effect hdev0 3 GPIO_PinState.GPIO_PIN_SET
    (mkBus [0, 0, 0x00, 0x01]) 0x00 0x01 (by decide) (by decide) (by decide) rfl rfl
    (fun _ _ => rfl)
  ⟨h.1, h.2.1, by decide⟩

end PCA9555
